import Mathlib

/-!
Verification of `docs/python/convertDoxygen.py` (OpenUSD documentation
converter, the `convertDoxygen` command-line driver).

The script is modelled as a pure function `run : Env → Args → Trace × Outcome`.

* `Args` holds the values returned by the command-line lookups at the top of
  the script (`GetArgValue` / `GetArg`), one field per option.
* `Env` models the external world the script interacts with: which files
  exist, which python modules can be imported, what `pickle.load` yields for
  the cache file, whether the parser succeeds on a given input, what
  `parser.traverse` returns, and whether a `Writer` can be constructed for a
  package/module pair.  `doxygenlib.cdParser`, `doxygenlib.cdUtils` and the
  writer plugins are not part of the translated source, so their behaviour is
  carried by `Env` fields and modelled from the specification.
* `Trace` is the ordered list of observable events the script performs
  (messages printed, files removed, parse/traverse/generate calls, cache
  writes), and `Outcome` says whether the process finished normally or
  terminated fatally (`Usage()` / `Error()` exit with a non-zero status).
-/

/-- Modelled from the spec: a `DocElement` is one node of the documentation
tree built by `doxygenlib.cdParser` (not part of the translated source):
kind, qualified name, Doxygen `refid`, brief and detailed description. -/
structure DocElement where
  kind : String
  name : String
  refid : String
  brief : String
  detailed : String
  deriving DecidableEq, Repr, Inhabited

/-- Modelled from the spec: the result of `pickle.load` on the cache file —
either the deserialized ordered `DocElement` sequence, or an exception
(corrupt or unreadable cache). -/
inductive CacheResult where
  | ok (docs : List DocElement)
  | exn
  deriving DecidableEq, Repr

def CacheResult.isOk : CacheResult → Bool
  | .ok _ => true
  | .exn => false

/-- The command-line option values read at the top of `convertDoxygen.py`.
Each field is the result of the corresponding `GetArgValue`/`GetArg` call;
`GetArgValue` (from `doxygenlib.cdUtils`, modelled from the spec) returns the
option's value or `none` when absent. -/
structure Args where
  xml_file : Option String        -- --input / -i
  xml_file_dir : Option String    -- --inputDir (read but never used below)
  xml_index_file : Option String  -- --inputIndex
  output_file : Option String     -- --output / -o
  format_arg : Option String      -- --format / -f (before the default applies)
  python_path : Option String     -- --pythonPath
  dll_path : Option String        -- --dllPath
  use_cached_parsing : Bool       -- --cacheParsing / -c
  debug_mode : Bool               -- --debug / -d
  help : Bool                     -- --help / -h
  packageName : Option String     -- --package / -p
  modules : Option String         -- --module / -m

/-- The external world of the script.  Fields for `doxygenlib` components and
the operating system are modelled from the spec, since only their caller
`convertDoxygen.py` is part of the translated source. -/
structure Env where
  /-- `os.path.isfile`. -/
  fileExists : String → Bool
  /-- Modelled from the spec: whether `importlib.import_module` succeeds for a
  given fully-qualified module name (plugin discovery). -/
  importable : String → Bool
  /-- Modelled from the spec: what loading the serialized cache at a given
  path yields (`pickle.load`): the stored `DocElement` list, or an
  exception. -/
  cacheLoad : String → CacheResult
  /-- Modelled from the spec: `Parser.parseDoxygenIndexFile(path)` returns a
  success boolean and does not raise. -/
  parseIndexResult : String → Bool
  /-- Modelled from the spec: `Parser.parse(path)` returns a success boolean
  and does not raise. -/
  parseResult : String → Bool
  /-- Modelled from the spec: the ordered `DocElement` sequence that
  `Parser.traverse(writer)` produces, as a function of the parsed input path
  and the visiting writer's module name (the traversal is deterministic). -/
  traverseOf : String → String → List DocElement
  /-- Modelled from the spec: whether the writer plugin's constructor
  `Writer(packageName, moduleName)` succeeds (it validates that the package
  and module can be loaded, failing fast otherwise). -/
  writerLoadOk : String → String → Bool
  /-- A content/modification signature of each source file (for example its
  mtime), maintained by the operating system.  `convertDoxygen.py` may read
  it but (as the theorems below show) never does. -/
  sourceSig : String → Nat

/-- One observable event of a script run. -/
inductive Event where
  | usage
  | error (msg : String)
  | debug (msg : String)
  | print (msg : String)
  | removeFile (path : String)
  | parseIndexCall (path : String)
  | parseCall (path : String)
  | traverseCall (visitorModule : String)
  | cacheWrite (path : String) (docs : List DocElement)
  | writerCreate (format pkg mod : String)
  | generateCall (format outputFile : String) (docs : List DocElement)
  deriving DecidableEq, Repr

abbrev Trace := List Event

/-- Whether the process finished normally or exited with a non-zero status
(`Usage()` and `Error()` from `doxygenlib.cdUtils`, modelled from the spec:
both report a message to the user and terminate the process fatally). -/
inductive Outcome where
  | success
  | fatal
  deriving DecidableEq, Repr

/-- `output_format = GetArgValue(['--format', '-f'], "Docstring")`:
the format option with its default. -/
def outputFormatOf (a : Args) : String := a.format_arg.getD "Docstring"

/-- The fully-qualified name of the writer plugin module:
`importlib.import_module(".cdWriter" + output_format, package="doxygenlib")`
resolves to module `doxygenlib.cdWriter<format>`. -/
def writerModuleNameOf (fmt : String) : String := "doxygenlib.cdWriter" ++ fmt

/-- `os.path.join` for two components (POSIX separator). -/
def osPathJoin (a b : String) : String := a ++ "/" ++ b

/-- `modules.split(",")` on the underlying character list: split at every
comma, keeping empty pieces (as Python's `str.split` does). -/
def splitComma : List Char → List (List Char)
  | [] => [[]]
  | c :: cs =>
    let r := splitComma cs
    if c = ',' then [] :: r
    else (c :: r.headD []) :: r.tail

/-- `module_list = [x for x in modules.split(",") if x]`. -/
def moduleListOf (modules : String) : List String :=
  ((splitComma modules.data).map (fun cs => String.mk cs)).filter
    (fun x => x ≠ "")

/-- The per-module output file computed inside the `for moduleName in
module_list` loop; `n` is `len(module_list)` (constant over the loop). -/
def moduleOutputFile (output_file : String) (n : Nat) (moduleName : String) :
    String :=
  if n == 1 && output_file.endsWith ".py" then output_file
  else osPathJoin (osPathJoin output_file moduleName) "__DOC.py"

/-- `output_files`, accumulated over the module loop. -/
def outputFilesOf (output_file : String) (modules : String) : List String :=
  (moduleListOf modules).map
    (moduleOutputFile output_file (moduleListOf modules).length)

/-- `pickle_path`: the cache file path, `xml_index_file + ".pickle"` when an
index file was given, else `xml_file + ".pickle"` (at the point of use at
least one of the two is present, so the `""` fallback is unreachable). -/
def picklePathOf (a : Args) : String :=
  match a.xml_index_file with
  | some idx => idx ++ ".pickle"
  | none => a.xml_file.getD "" ++ ".pickle"

/-- The XML source the parser reads: the index file when given, else the
direct XML file. -/
def inputPathOf (a : Args) : String :=
  match a.xml_index_file with
  | some idx => idx
  | none => a.xml_file.getD ""

/-- The cache-read step: `if use_cached_parsing and os.path.isfile(pickle_path)`
then `pickle.load` inside `try/except Exception`, which on success sets
`docList` and logs a debug line, and on failure logs two debug lines and
leaves `docList = None`. -/
def cachePhase (env : Env) (use_cached : Bool) (pickle_path : String) :
    Trace × Option (List DocElement) :=
  if use_cached && env.fileExists pickle_path then
    match env.cacheLoad pickle_path with
    | .ok docs =>
        ([Event.debug ("Read pre-parsed file: '" ++ pickle_path ++ "'")],
         some docs)
    | .exn =>
        ([Event.debug ("Error reading pre-parsed file: '" ++ pickle_path ++ "'"),
          Event.debug "traceback.format_exc()"],
         none)
  else ([], none)

/-- The parse step run when `docList is None`: dispatch on whether an index
file was supplied, call the corresponding parser entry point, and on a false
result report a fatal error.  Returns the emitted events and the success
boolean the caller checks. -/
def parsePhase (env : Env) (a : Args) : Trace × Bool :=
  match a.xml_index_file with
  | some idx =>
      if env.parseIndexResult idx then ([Event.parseIndexCall idx], true)
      else ([Event.parseIndexCall idx,
             Event.error ("Could not parse XML index file: " ++ idx)], false)
  | none =>
      let f := a.xml_file.getD ""
      if env.parseResult f then ([Event.parseCall f], true)
      else ([Event.parseCall f,
             Event.error ("Could not parse XML file: " ++ f)], false)

/-- The `for moduleName, module_output_file in zip(module_list, output_files)`
loop: construct a `Writer` for the module (fatal if the package/module cannot
be loaded), call `parser.traverse(writer)` only when `docList` is still
`None` (writing the cache when enabled), and pass `docList` to
`writer.generate`. -/
def moduleLoop (wOk : String → String → Bool) (trav : String → List DocElement)
    (fmt pkg pickle_path : String) (use_cached : Bool) :
    List (String × String) → Option (List DocElement) → Trace × Outcome
  | [], _ => ([], Outcome.success)
  | (m, outF) :: rest, docList =>
    if wOk pkg m then
      match docList with
      | some docs =>
          let r := moduleLoop wOk trav fmt pkg pickle_path use_cached rest
            (some docs)
          (Event.writerCreate fmt pkg m ::
             Event.debug ("Processing module " ++ m) ::
             Event.generateCall fmt outF docs :: r.1, r.2)
      | none =>
          let docs := trav m
          let r := moduleLoop wOk trav fmt pkg pickle_path use_cached rest
            (some docs)
          (Event.writerCreate fmt pkg m ::
             Event.debug ("Processing module " ++ m) ::
             Event.traverseCall m ::
             Event.debug ("Processed " ++ toString docs.length ++
               " DocElements from doxygen XML") ::
             ((if use_cached then [Event.cacheWrite pickle_path docs] else []) ++
              Event.generateCall fmt outF docs :: r.1), r.2)
    else
      ([Event.error ("Could not load " ++ pkg ++ "." ++ m)], Outcome.fatal)

/-- The whole script, top to bottom.  `Usage()` and `Error()` report to the
user and exit with a non-zero status (modelled from the spec: "fatal,
reported to the user, process exits non-zero"); `python_path`/`dll_path`
handling only mutates interpreter search paths and produces no observable
event here. -/
def run (env : Env) (a : Args) : Trace × Outcome :=
  let output_format := outputFormatOf a
  -- if not (xml_file or xml_index_file) or not output_file or --help: Usage()
  if (a.xml_file.isNone && a.xml_index_file.isNone) || a.output_file.isNone ||
      a.help then
    ([Event.usage], Outcome.fatal)
  else
    match a.packageName with
    | none => ([Event.error "Required option --package not specified"],
               Outcome.fatal)
    | some packageName =>
      match a.modules with
      | none => ([Event.error "Required option --module not specified"],
                 Outcome.fatal)
      | some modules =>
        let output_file := a.output_file.getD ""  -- isSome: guarded above
        let module_list := moduleListOf modules
        let output_files := outputFilesOf output_file modules
        -- delete existing __DOC.py files first
        let tDel : Trace :=
          (output_files.filter env.fileExists).map Event.removeFile
        -- try to import the plugin module for the desired output format
        if env.importable (writerModuleNameOf output_format) then
          let tPre := tDel ++
            [Event.print ("Converting Doxygen comments to " ++ output_format ++
              " format...")]
          let pickle_path := picklePathOf a
          let cr := cachePhase env a.use_cached_parsing pickle_path
          match cr.2 with
          | some docs =>
              let r := moduleLoop env.writerLoadOk
                (env.traverseOf (inputPathOf a)) output_format packageName
                pickle_path a.use_cached_parsing
                (module_list.zip output_files) (some docs)
              (tPre ++ cr.1 ++ r.1, r.2)
          | none =>
              let pr := parsePhase env a
              if pr.2 then
                let r := moduleLoop env.writerLoadOk
                  (env.traverseOf (inputPathOf a)) output_format packageName
                  pickle_path a.use_cached_parsing
                  (module_list.zip output_files) none
                (tPre ++ cr.1 ++ pr.1 ++ r.1, r.2)
              else (tPre ++ cr.1 ++ pr.1, Outcome.fatal)
        else
          (tDel ++ [Event.error ("No writer plugin exists for format '" ++
             output_format ++ "'")], Outcome.fatal)

/-- An event that reports a message to the user (`Usage()` or `Error()`). -/
def Event.isReport : Event → Bool
  | .usage => true
  | .error _ => true
  | _ => false

/-- An invocation of one of the parser's entry points. -/
def Event.isParseEvent : Event → Bool
  | .parseIndexCall _ => true
  | .parseCall _ => true
  | _ => false

/-- An invocation of `parser.traverse`. -/
def Event.isTraverse : Event → Bool
  | .traverseCall _ => true
  | _ => false

/-- An invocation of `writer.generate`. -/
def Event.isGenerate : Event → Bool
  | .generateCall _ _ _ => true
  | _ => false

/-- Parsing or output-generation work. -/
def Event.isWork (e : Event) : Bool :=
  e.isParseEvent || e.isTraverse || e.isGenerate

/-- The writer-plugin format an event is tagged with, for events performed
through the imported `Writer` class. -/
def Event.writerFormat : Event → Option String
  | .writerCreate f _ _ => some f
  | .generateCall f _ _ => some f
  | _ => none

/-- The `DocElement` list passed to a `writer.generate` call. -/
def Event.genPayload : Event → Option (List DocElement)
  | .generateCall _ _ docs => some docs
  | _ => none

/-- How many times `parser.traverse` is invoked in a trace. -/
def traverseCount (t : Trace) : Nat := (t.filter Event.isTraverse).length

/-- The `DocElement` lists passed to the `generate` calls of a trace, in
order. -/
def genPayloads (t : Trace) : List (List DocElement) :=
  t.filterMap Event.genPayload

/-- Whether the cache-read step produced a usable `docList` (a valid cache
hit): caching enabled, cache file present, deserialization succeeded. -/
def validCacheHit (env : Env) (a : Args) : Bool :=
  (cachePhase env a.use_cached_parsing (picklePathOf a)).2.isSome

/-- The kinds of event the module loop can emit, with writer events tagged by
the loop's format. -/
def loopEvent (fmt : String) : Event → Prop
  | .writerCreate f _ _ => f = fmt
  | .generateCall f _ _ => f = fmt
  | .debug _ => True
  | .traverseCall _ => True
  | .cacheWrite _ _ => True
  | .error _ => True
  | _ => False

theorem moduleLoop_shape (wOk : String → String → Bool)
    (trav : String → List DocElement) (fmt pkg pp : String) (uc : Bool) :
    ∀ (pairs : List (String × String)) (dl : Option (List DocElement)),
      ∀ e ∈ (moduleLoop wOk trav fmt pkg pp uc pairs dl).1, loopEvent fmt e := by
  intro pairs
  induction pairs with
  | nil => intro dl e he; simp [moduleLoop] at he
  | cons p rest ih =>
    obtain ⟨m, outF⟩ := p
    intro dl e he
    by_cases hw : wOk pkg m = true
    · cases dl with
      | some docs =>
        simp only [moduleLoop, hw, if_true, List.mem_cons] at he
        rcases he with rfl | rfl | rfl | he
        · exact rfl
        · trivial
        · exact rfl
        · exact ih (some docs) e he
      | none =>
        simp only [moduleLoop, hw, if_true, List.mem_cons, List.mem_append] at he
        rcases he with rfl | rfl | rfl | rfl | (he | he)
        · exact rfl
        · trivial
        · trivial
        · trivial
        · by_cases huc : uc = true <;> simp [huc] at he
          subst he; trivial
        · rcases he with rfl | he
          · exact rfl
          · exact ih (some (trav m)) e he
    · simp only [moduleLoop, hw, if_false, Bool.false_eq_true,
        List.mem_singleton] at he
      subst he; trivial

theorem moduleLoop_some (wOk : String → String → Bool)
    (trav : String → List DocElement) (fmt pkg pp : String) (uc : Bool) :
    ∀ (pairs : List (String × String)) (docs : List DocElement),
      ∀ e ∈ (moduleLoop wOk trav fmt pkg pp uc pairs (some docs)).1,
        e.isTraverse = false ∧ ∀ p, e.genPayload = some p → p = docs := by
  intro pairs
  induction pairs with
  | nil => intro docs e he; simp [moduleLoop] at he
  | cons p rest ih =>
    obtain ⟨m, outF⟩ := p
    intro docs e he
    by_cases hw : wOk pkg m = true
    · simp only [moduleLoop, hw, if_true, List.mem_cons] at he
      rcases he with rfl | rfl | rfl | he
      · exact ⟨rfl, by simp [Event.genPayload]⟩
      · exact ⟨rfl, by simp [Event.genPayload]⟩
      · exact ⟨rfl, by simp [Event.genPayload]⟩
      · exact ih docs e he
    · simp only [moduleLoop, hw, if_false, Bool.false_eq_true,
        List.mem_singleton] at he
      subst he
      exact ⟨rfl, by simp [Event.genPayload]⟩

theorem moduleLoop_traverse_first (wOk : String → String → Bool)
    (trav : String → List DocElement) (fmt pkg pp : String) (uc : Bool) :
    ∀ (pairs : List (String × String)) (dl : Option (List DocElement))
      (m : String), Event.traverseCall m ∈ (moduleLoop wOk trav fmt pkg pp uc
        pairs dl).1 →
      dl = none ∧ ∃ outF rest, pairs = (m, outF) :: rest := by
  intro pairs
  induction pairs with
  | nil => intro dl m he; simp [moduleLoop] at he
  | cons p rest ih =>
    obtain ⟨m', outF'⟩ := p
    intro dl m he
    by_cases hw : wOk pkg m' = true
    · cases dl with
      | some docs =>
        have h1 := (moduleLoop_some wOk trav fmt pkg pp uc ((m', outF') :: rest)
          docs _ he).1
        simp [Event.isTraverse] at h1
      | none =>
        simp only [moduleLoop, hw, if_true, List.mem_cons, List.mem_append] at he
        rcases he with he | he | he | he | (he | he)
        · exact absurd he (by simp)
        · exact absurd he (by simp)
        · exact ⟨rfl, outF', rest, by simp at he; simp [he]⟩
        · exact absurd he (by simp)
        · by_cases huc : uc = true <;> simp [huc] at he
        · rcases he with he | he
          · exact absurd he (by simp)
          · have h1 := (moduleLoop_some wOk trav fmt pkg pp uc rest (trav m')
              _ he).1
            simp [Event.isTraverse] at h1
    · simp only [moduleLoop, hw, if_false, Bool.false_eq_true,
        List.mem_singleton] at he
      exact absurd he (by simp)

theorem moduleLoop_filter_traverse_some (wOk : String → String → Bool)
    (trav : String → List DocElement) (fmt pkg pp : String) (uc : Bool)
    (pairs : List (String × String)) (docs : List DocElement) :
    List.filter Event.isTraverse
      (moduleLoop wOk trav fmt pkg pp uc pairs (some docs)).1 = [] := by
  rw [List.filter_eq_nil_iff]
  intro e he
  simp [(moduleLoop_some wOk trav fmt pkg pp uc pairs docs e he).1]

theorem moduleLoop_traverseCount (wOk : String → String → Bool)
    (trav : String → List DocElement) (fmt pkg pp : String) (uc : Bool) :
    ∀ (pairs : List (String × String)) (dl : Option (List DocElement)),
      traverseCount (moduleLoop wOk trav fmt pkg pp uc pairs dl).1 ≤ 1 := by
  intro pairs dl
  cases dl with
  | some docs =>
    simp [traverseCount, moduleLoop_filter_traverse_some]
  | none =>
    cases pairs with
    | nil => simp [moduleLoop, traverseCount]
    | cons p rest =>
      obtain ⟨m, outF⟩ := p
      by_cases hw : wOk pkg m = true
      · simp only [moduleLoop, hw, if_true]
        unfold traverseCount
        by_cases huc : uc = true <;>
          simp [huc, List.filter_append, List.filter, Event.isTraverse,
            moduleLoop_filter_traverse_some]
      · simp [moduleLoop, hw, traverseCount, List.filter, Event.isTraverse]

theorem moduleLoop_genPayloads_some (wOk : String → String → Bool)
    (trav : String → List DocElement) (fmt pkg pp : String) (uc : Bool)
    (pairs : List (String × String)) (docs : List DocElement) :
    ∀ p ∈ genPayloads (moduleLoop wOk trav fmt pkg pp uc pairs (some docs)).1,
      p = docs := by
  intro p hp
  unfold genPayloads at hp
  rw [List.mem_filterMap] at hp
  obtain ⟨e, he, hpe⟩ := hp
  exact (moduleLoop_some wOk trav fmt pkg pp uc pairs docs e he).2 p hpe

theorem moduleLoop_genPayloads_none_cons (wOk : String → String → Bool)
    (trav : String → List DocElement) (fmt pkg pp : String) (uc : Bool)
    (m outF : String) (rest : List (String × String)) :
    genPayloads (moduleLoop wOk trav fmt pkg pp uc ((m, outF) :: rest) none).1
      = genPayloads (moduleLoop wOk trav fmt pkg pp uc ((m, outF) :: rest)
          (some (trav m))).1 := by
  by_cases hw : wOk pkg m = true
  · by_cases huc : uc = true <;>
      simp [moduleLoop, hw, huc, genPayloads, List.filterMap_append,
        List.filterMap, Event.genPayload]
  · simp [moduleLoop, hw, genPayloads, List.filterMap, Event.genPayload]

theorem moduleLoop_payload_unique (wOk : String → String → Bool)
    (trav : String → List DocElement) (fmt pkg pp : String) (uc : Bool)
    (pairs : List (String × String)) (dl : Option (List DocElement)) :
    ∀ p ∈ genPayloads (moduleLoop wOk trav fmt pkg pp uc pairs dl).1,
      ∀ q ∈ genPayloads (moduleLoop wOk trav fmt pkg pp uc pairs dl).1,
        p = q := by
  intro p hp q hq
  cases dl with
  | some docs =>
    rw [moduleLoop_genPayloads_some wOk trav fmt pkg pp uc pairs docs p hp,
      moduleLoop_genPayloads_some wOk trav fmt pkg pp uc pairs docs q hq]
  | none =>
    cases pairs with
    | nil => simp [moduleLoop, genPayloads] at hp
    | cons pr rest =>
      obtain ⟨m, outF⟩ := pr
      rw [moduleLoop_genPayloads_none_cons] at hp hq
      rw [moduleLoop_genPayloads_some wOk trav fmt pkg pp uc _ _ p hp,
        moduleLoop_genPayloads_some wOk trav fmt pkg pp uc _ _ q hq]

/-- The parse success boolean the caller checks, per input kind. -/
def parseOk (env : Env) (a : Args) : Bool :=
  match a.xml_index_file with
  | some idx => env.parseIndexResult idx
  | none => env.parseResult (a.xml_file.getD "")

theorem parsePhase_ok (env : Env) (a : Args) :
    (parsePhase env a).2 = parseOk env a := by
  unfold parsePhase parseOk
  cases a.xml_index_file with
  | none => by_cases h : env.parseResult (a.xml_file.getD "") = true <;> simp [h]
  | some idx => by_cases h : env.parseIndexResult idx = true <;> simp [h]

theorem parsePhase_shape (env : Env) (a : Args) :
    ∀ e ∈ (parsePhase env a).1,
      e.isParseEvent = true ∨ ∃ msg, e = Event.error msg := by
  intro e he
  unfold parsePhase at he
  cases hix : a.xml_index_file with
  | none =>
    rw [hix] at he
    by_cases h : env.parseResult (a.xml_file.getD "") = true <;>
      simp [h] at he
    · subst he; left; rfl
    · rcases he with rfl | rfl
      · left; rfl
      · right; exact ⟨_, rfl⟩
  | some idx =>
    rw [hix] at he
    by_cases h : env.parseIndexResult idx = true <;> simp [h] at he
    · subst he; left; rfl
    · rcases he with rfl | rfl
      · left; rfl
      · right; exact ⟨_, rfl⟩

theorem parsePhase_index (env : Env) (a : Args) (idx : String)
    (h : a.xml_index_file = some idx) :
    Event.parseIndexCall idx ∈ (parsePhase env a).1 ∧
      ∀ x, Event.parseCall x ∉ (parsePhase env a).1 := by
  unfold parsePhase
  rw [h]
  by_cases hr : env.parseIndexResult idx = true <;> simp [hr]

theorem parsePhase_has_parse (env : Env) (a : Args) :
    ∃ e ∈ (parsePhase env a).1, e.isParseEvent = true := by
  unfold parsePhase
  cases hix : a.xml_index_file with
  | none =>
    refine ⟨Event.parseCall (a.xml_file.getD ""), ?_, rfl⟩
    by_cases h : env.parseResult (a.xml_file.getD "") = true <;> simp [h]
  | some idx =>
    refine ⟨Event.parseIndexCall idx, ?_, rfl⟩
    by_cases h : env.parseIndexResult idx = true <;> simp [h]

theorem cachePhase_debug (env : Env) (uc : Bool) (pp : String) :
    ∀ e ∈ (cachePhase env uc pp).1, ∃ msg, e = Event.debug msg := by
  intro e he
  unfold cachePhase at he
  by_cases h : (uc && env.fileExists pp) = true
  · rw [if_pos h] at he
    cases hl : env.cacheLoad pp with
    | ok docs => rw [hl] at he; simp at he; exact ⟨_, he⟩
    | exn => rw [hl] at he; simp at he; rcases he with rfl | rfl <;> exact ⟨_, rfl⟩
  · rw [if_neg h] at he; simp at he

theorem mem_removeFile_map {l : List String} {f : String → Bool} {e : Event}
    (he : e ∈ (l.filter f).map Event.removeFile) :
    ∃ p, e = Event.removeFile p := by
  rw [List.mem_map] at he
  obtain ⟨p, _, hpe⟩ := he
  exact ⟨p, hpe.symm⟩

/-- The module loop of a run, instantiated with the writer, traversal, cache
path and module/output pairing the script computes. -/
def loopOf (env : Env) (a : Args) (out pkg mods : String)
    (dl : Option (List DocElement)) : Trace × Outcome :=
  moduleLoop env.writerLoadOk (env.traverseOf (inputPathOf a))
    (outputFormatOf a) pkg (picklePathOf a) a.use_cached_parsing
    ((moduleListOf mods).zip (outputFilesOf out mods)) dl

/-- The events of the `__DOC.py` deletion loop. -/
def tDelOf (env : Env) (out mods : String) : Trace :=
  ((outputFilesOf out mods).filter env.fileExists).map Event.removeFile

/-- The tail of `run` once the argument guards have passed: `out`, `pkg` and
`mods` are the values of the three required options. -/
def runCore (env : Env) (a : Args) (out pkg mods : String) : Trace × Outcome :=
  let output_format := outputFormatOf a
  let tDel := tDelOf env out mods
  if env.importable (writerModuleNameOf output_format) then
    let tPre := tDel ++
      [Event.print ("Converting Doxygen comments to " ++ output_format ++
        " format...")]
    let cr := cachePhase env a.use_cached_parsing (picklePathOf a)
    match cr.2 with
    | some docs =>
        let r := loopOf env a out pkg mods (some docs)
        (tPre ++ cr.1 ++ r.1, r.2)
    | none =>
        let pr := parsePhase env a
        if pr.2 then
          let r := loopOf env a out pkg mods none
          (tPre ++ cr.1 ++ pr.1 ++ r.1, r.2)
        else (tPre ++ cr.1 ++ pr.1, Outcome.fatal)
  else
    (tDel ++ [Event.error ("No writer plugin exists for format '" ++
       output_format ++ "'")], Outcome.fatal)

theorem run_ready (env : Env) (a : Args) (out pkg mods : String)
    (hin : (a.xml_file.isNone && a.xml_index_file.isNone) = false)
    (hout : a.output_file = some out) (hhelp : a.help = false)
    (hpkg : a.packageName = some pkg) (hmods : a.modules = some mods) :
    run env a = runCore env a out pkg mods := by
  unfold run runCore loopOf tDelOf
  rw [hout, hpkg, hmods]
  simp [hin, hhelp]

theorem runCore_noPlugin (env : Env) (a : Args) (out pkg mods : String)
    (himp : env.importable (writerModuleNameOf (outputFormatOf a)) = false) :
    runCore env a out pkg mods =
      (tDelOf env out mods ++
        [Event.error ("No writer plugin exists for format '" ++
          outputFormatOf a ++ "'")], Outcome.fatal) := by
  simp only [runCore]
  simp [himp]

theorem runCore_cacheHit (env : Env) (a : Args) (out pkg mods : String)
    (docs : List DocElement)
    (himp : env.importable (writerModuleNameOf (outputFormatOf a)) = true)
    (hcr : (cachePhase env a.use_cached_parsing (picklePathOf a)).2
      = some docs) :
    runCore env a out pkg mods =
      (tDelOf env out mods ++
        [Event.print ("Converting Doxygen comments to " ++ outputFormatOf a ++
          " format...")] ++
        (cachePhase env a.use_cached_parsing (picklePathOf a)).1 ++
        (loopOf env a out pkg mods (some docs)).1,
       (loopOf env a out pkg mods (some docs)).2) := by
  simp only [runCore]
  simp [himp, hcr]

theorem runCore_parseGo (env : Env) (a : Args) (out pkg mods : String)
    (himp : env.importable (writerModuleNameOf (outputFormatOf a)) = true)
    (hcr : (cachePhase env a.use_cached_parsing (picklePathOf a)).2 = none)
    (hok : (parsePhase env a).2 = true) :
    runCore env a out pkg mods =
      (tDelOf env out mods ++
        [Event.print ("Converting Doxygen comments to " ++ outputFormatOf a ++
          " format...")] ++
        (cachePhase env a.use_cached_parsing (picklePathOf a)).1 ++
        (parsePhase env a).1 ++ (loopOf env a out pkg mods none).1,
       (loopOf env a out pkg mods none).2) := by
  simp only [runCore]
  simp [himp, hcr, hok]

theorem runCore_parseFail (env : Env) (a : Args) (out pkg mods : String)
    (himp : env.importable (writerModuleNameOf (outputFormatOf a)) = true)
    (hcr : (cachePhase env a.use_cached_parsing (picklePathOf a)).2 = none)
    (hok : (parsePhase env a).2 = false) :
    runCore env a out pkg mods =
      (tDelOf env out mods ++
        [Event.print ("Converting Doxygen comments to " ++ outputFormatOf a ++
          " format...")] ++
        (cachePhase env a.use_cached_parsing (picklePathOf a)).1 ++
        (parsePhase env a).1, Outcome.fatal) := by
  simp only [runCore]
  simp [himp, hcr, hok]

theorem loopEvent_writerFormat {fmt f : String} {e : Event}
    (hle : loopEvent fmt e) (hf : e.writerFormat = some f) : f = fmt := by
  cases e <;> simp_all [Event.writerFormat, loopEvent]

theorem loopEvent_not_parse {fmt : String} {e : Event} (hle : loopEvent fmt e) :
    e.isParseEvent = false := by
  cases e <;> simp_all [Event.isParseEvent, loopEvent]

theorem cachePhase_hit (env : Env) (uc : Bool) (pp : String)
    (docs : List DocElement) (huc : uc = true)
    (hfe : env.fileExists pp = true) (hload : env.cacheLoad pp = .ok docs) :
    cachePhase env uc pp =
      ([Event.debug ("Read pre-parsed file: '" ++ pp ++ "'")], some docs) := by
  simp [cachePhase, huc, hfe, hload]

theorem cachePhase_exn (env : Env) (uc : Bool) (pp : String) (huc : uc = true)
    (hfe : env.fileExists pp = true) (hload : env.cacheLoad pp = .exn) :
    cachePhase env uc pp =
      ([Event.debug ("Error reading pre-parsed file: '" ++ pp ++ "'"),
        Event.debug "traceback.format_exc()"], none) := by
  simp [cachePhase, huc, hfe, hload]

theorem cachePhase_nofile (env : Env) (uc : Bool) (pp : String)
    (hfe : env.fileExists pp = false) :
    cachePhase env uc pp = ([], none) := by
  simp [cachePhase, hfe]

theorem parsePhase_fail_error (env : Env) (a : Args)
    (h : (parsePhase env a).2 = false) :
    ∃ msg, Event.error msg ∈ (parsePhase env a).1 := by
  unfold parsePhase at h ⊢
  cases hix : a.xml_index_file with
  | none =>
    rw [hix] at h
    by_cases hr : env.parseResult (a.xml_file.getD "") = true
    · simp [hr] at h
    · exact ⟨"Could not parse XML file: " ++ a.xml_file.getD "", by simp [hr]⟩
  | some idx =>
    rw [hix] at h
    by_cases hr : env.parseIndexResult idx = true
    · simp [hr] at h
    · exact ⟨"Could not parse XML index file: " ++ idx, by simp [hr]⟩

theorem run_eq_core (env : Env) (a : Args) (pkg mods : String)
    (hc : ((a.xml_file.isNone && a.xml_index_file.isNone) ||
      a.output_file.isNone || a.help) = false)
    (hpkg : a.packageName = some pkg) (hmods : a.modules = some mods) :
    run env a = runCore env a (a.output_file.getD "") pkg mods := by
  unfold run runCore loopOf tDelOf
  rw [hpkg, hmods]
  simp [hc]

theorem runCore_mem (env : Env) (a : Args) (out pkg mods : String) :
    ∀ e ∈ (runCore env a out pkg mods).1,
      (∃ msg, e = Event.error msg) ∨ (∃ p, e = Event.removeFile p) ∨
      (∃ msg, e = Event.print msg) ∨ (∃ msg, e = Event.debug msg) ∨
      e ∈ (parsePhase env a).1 ∨ loopEvent (outputFormatOf a) e := by
  intro e he
  by_cases himp : env.importable (writerModuleNameOf (outputFormatOf a)) = true
  · cases hcr : (cachePhase env a.use_cached_parsing (picklePathOf a)).2 with
    | some docs =>
      rw [runCore_cacheHit env a out pkg mods docs himp hcr] at he
      simp only [List.mem_append] at he
      rcases he with ((he | he) | he) | he
      · exact Or.inr (Or.inl (mem_removeFile_map he))
      · simp at he; subst he; exact Or.inr (Or.inr (Or.inl ⟨_, rfl⟩))
      · exact Or.inr (Or.inr (Or.inr (Or.inl
          (cachePhase_debug env _ _ e he))))
      · exact Or.inr (Or.inr (Or.inr (Or.inr (Or.inr
          (moduleLoop_shape _ _ _ _ _ _ _ _ e he)))))
    | none =>
      by_cases hok : (parsePhase env a).2 = true
      · rw [runCore_parseGo env a out pkg mods himp hcr hok] at he
        simp only [List.mem_append] at he
        rcases he with (((he | he) | he) | he) | he
        · exact Or.inr (Or.inl (mem_removeFile_map he))
        · simp at he; subst he; exact Or.inr (Or.inr (Or.inl ⟨_, rfl⟩))
        · exact Or.inr (Or.inr (Or.inr (Or.inl
            (cachePhase_debug env _ _ e he))))
        · exact Or.inr (Or.inr (Or.inr (Or.inr (Or.inl he))))
        · exact Or.inr (Or.inr (Or.inr (Or.inr (Or.inr
            (moduleLoop_shape _ _ _ _ _ _ _ _ e he)))))
      · rw [Bool.not_eq_true] at hok
        rw [runCore_parseFail env a out pkg mods himp hcr hok] at he
        simp only [List.mem_append] at he
        rcases he with ((he | he) | he) | he
        · exact Or.inr (Or.inl (mem_removeFile_map he))
        · simp at he; subst he; exact Or.inr (Or.inr (Or.inl ⟨_, rfl⟩))
        · exact Or.inr (Or.inr (Or.inr (Or.inl
            (cachePhase_debug env _ _ e he))))
        · exact Or.inr (Or.inr (Or.inr (Or.inr (Or.inl he))))
  · rw [Bool.not_eq_true] at himp
    rw [runCore_noPlugin env a out pkg mods himp] at he
    simp only [List.mem_append] at he
    rcases he with he | he
    · exact Or.inr (Or.inl (mem_removeFile_map he))
    · simp at he; subst he; exact Or.inl ⟨_, rfl⟩

theorem run_mem (env : Env) (a : Args) :
    ∀ e ∈ (run env a).1,
      e = Event.usage ∨ (∃ msg, e = Event.error msg) ∨
      (∃ p, e = Event.removeFile p) ∨ (∃ msg, e = Event.print msg) ∨
      (∃ msg, e = Event.debug msg) ∨ e ∈ (parsePhase env a).1 ∨
      loopEvent (outputFormatOf a) e := by
  intro e he
  by_cases hc : ((a.xml_file.isNone && a.xml_index_file.isNone) ||
      a.output_file.isNone || a.help) = true
  · have hr : run env a = ([Event.usage], Outcome.fatal) := by
      simp only [run]
      simp [hc]
    rw [hr] at he
    simp at he
    subst he
    exact Or.inl rfl
  · rw [Bool.not_eq_true] at hc
    cases hpkg : a.packageName with
    | none =>
      have hr : run env a =
          ([Event.error "Required option --package not specified"],
           Outcome.fatal) := by
        simp only [run]
        simp [hc, hpkg]
      rw [hr] at he
      simp at he
      subst he
      exact Or.inr (Or.inl ⟨_, rfl⟩)
    | some pkg =>
      cases hmods : a.modules with
      | none =>
        have hr : run env a =
            ([Event.error "Required option --module not specified"],
             Outcome.fatal) := by
          simp only [run]
          simp [hc, hpkg, hmods]
        rw [hr] at he
        simp at he
        subst he
        exact Or.inr (Or.inl ⟨_, rfl⟩)
      | some mods =>
        rw [run_eq_core env a pkg mods hc hpkg hmods] at he
        exact Or.inr (runCore_mem env a _ pkg mods e he)

theorem traverseCount_append (t1 t2 : Trace) :
    traverseCount (t1 ++ t2) = traverseCount t1 + traverseCount t2 := by
  simp [traverseCount, List.filter_append]

theorem traverseCount_eq_zero {t : Trace}
    (h : ∀ e ∈ t, e.isTraverse = false) : traverseCount t = 0 := by
  unfold traverseCount
  rw [List.length_eq_zero, List.filter_eq_nil_iff]
  intro e he
  simp [h e he]

theorem genPayloads_append (t1 t2 : Trace) :
    genPayloads (t1 ++ t2) = genPayloads t1 ++ genPayloads t2 := by
  simp [genPayloads, List.filterMap_append]

theorem genPayloads_eq_nil {t : Trace}
    (h : ∀ e ∈ t, e.genPayload = none) : genPayloads t = [] := by
  unfold genPayloads
  induction t with
  | nil => rfl
  | cons x xs ih =>
    rw [List.filterMap_cons, h x (by simp)]
    exact ih (fun e he => h e (by simp [he]))

theorem tDelOf_class (env : Env) (out mods : String) :
    ∀ e ∈ tDelOf env out mods,
      e.isTraverse = false ∧ e.genPayload = none ∧ e.isParseEvent = false ∧
        e.isGenerate = false ∧ e.isWork = false := by
  intro e he
  unfold tDelOf at he
  obtain ⟨p, rfl⟩ := mem_removeFile_map he
  exact ⟨rfl, rfl, rfl, rfl, rfl⟩

theorem cachePhase_class (env : Env) (uc : Bool) (pp : String) :
    ∀ e ∈ (cachePhase env uc pp).1,
      e.isTraverse = false ∧ e.genPayload = none ∧ e.isParseEvent = false ∧
        e.isGenerate = false ∧ e.isWork = false := by
  intro e he
  obtain ⟨msg, rfl⟩ := cachePhase_debug env uc pp e he
  exact ⟨rfl, rfl, rfl, rfl, rfl⟩

theorem parsePhase_class (env : Env) (a : Args) :
    ∀ e ∈ (parsePhase env a).1,
      e.isTraverse = false ∧ e.genPayload = none ∧ e.isGenerate = false := by
  intro e he
  rcases parsePhase_shape env a e he with hp | ⟨msg, rfl⟩
  · cases e <;> simp_all [Event.isParseEvent, Event.isTraverse,
      Event.genPayload, Event.isGenerate]
  · exact ⟨rfl, rfl, rfl⟩

theorem tDelOf_congr (env env' : Env) (out mods : String)
    (h : ∀ f ∈ outputFilesOf out mods, env'.fileExists f = env.fileExists f) :
    tDelOf env' out mods = tDelOf env out mods := by
  unfold tDelOf
  rw [List.filter_congr h]

theorem zip_cons_head {α β : Type} {l1 : List α} {l2 : List β}
    {x : α × β} {rest : List (α × β)} (h : l1.zip l2 = x :: rest) :
    l1.head? = some x.1 := by
  cases l1 with
  | nil => simp at h
  | cons a t1 =>
    cases l2 with
    | nil => simp at h
    | cons b t2 =>
      simp only [List.zip_cons_cons] at h
      rw [List.cons.injEq] at h
      rw [← h.1]
      rfl

theorem runCore_trace_decomp (env : Env) (a : Args) (out pkg mods : String) :
    ∃ pre : Trace,
      (∀ e ∈ pre, e.isTraverse = false ∧ e.genPayload = none) ∧
      ((runCore env a out pkg mods).1 = pre ∨
        ∃ dl, (runCore env a out pkg mods).1 =
          pre ++ (loopOf env a out pkg mods dl).1) := by
  by_cases himp : env.importable (writerModuleNameOf (outputFormatOf a)) = true
  · cases hcr : (cachePhase env a.use_cached_parsing (picklePathOf a)).2 with
    | some docs =>
      refine ⟨tDelOf env out mods ++
        [Event.print ("Converting Doxygen comments to " ++ outputFormatOf a ++
          " format...")] ++
        (cachePhase env a.use_cached_parsing (picklePathOf a)).1, ?_, ?_⟩
      · intro e he
        simp only [List.mem_append] at he
        rcases he with (he | he) | he
        · exact ⟨(tDelOf_class env out mods e he).1,
            (tDelOf_class env out mods e he).2.1⟩
        · simp at he; subst he; exact ⟨rfl, rfl⟩
        · exact ⟨(cachePhase_class env _ _ e he).1,
            (cachePhase_class env _ _ e he).2.1⟩
      · right
        exact ⟨some docs, by
          rw [runCore_cacheHit env a out pkg mods docs himp hcr]⟩
    | none =>
      by_cases hok : (parsePhase env a).2 = true
      · refine ⟨tDelOf env out mods ++
          [Event.print ("Converting Doxygen comments to " ++ outputFormatOf a ++
            " format...")] ++
          (cachePhase env a.use_cached_parsing (picklePathOf a)).1 ++
          (parsePhase env a).1, ?_, ?_⟩
        · intro e he
          simp only [List.mem_append] at he
          rcases he with ((he | he) | he) | he
          · exact ⟨(tDelOf_class env out mods e he).1,
              (tDelOf_class env out mods e he).2.1⟩
          · simp at he; subst he; exact ⟨rfl, rfl⟩
          · exact ⟨(cachePhase_class env _ _ e he).1,
              (cachePhase_class env _ _ e he).2.1⟩
          · exact ⟨(parsePhase_class env a e he).1,
              (parsePhase_class env a e he).2.1⟩
        · right
          exact ⟨none, by
            rw [runCore_parseGo env a out pkg mods himp hcr hok]⟩
      · rw [Bool.not_eq_true] at hok
        refine ⟨tDelOf env out mods ++
          [Event.print ("Converting Doxygen comments to " ++ outputFormatOf a ++
            " format...")] ++
          (cachePhase env a.use_cached_parsing (picklePathOf a)).1 ++
          (parsePhase env a).1, ?_, ?_⟩
        · intro e he
          simp only [List.mem_append] at he
          rcases he with ((he | he) | he) | he
          · exact ⟨(tDelOf_class env out mods e he).1,
              (tDelOf_class env out mods e he).2.1⟩
          · simp at he; subst he; exact ⟨rfl, rfl⟩
          · exact ⟨(cachePhase_class env _ _ e he).1,
              (cachePhase_class env _ _ e he).2.1⟩
          · exact ⟨(parsePhase_class env a e he).1,
              (parsePhase_class env a e he).2.1⟩
        · left
          rw [runCore_parseFail env a out pkg mods himp hcr hok]
  · rw [Bool.not_eq_true] at himp
    refine ⟨tDelOf env out mods ++
      [Event.error ("No writer plugin exists for format '" ++
        outputFormatOf a ++ "'")], ?_, Or.inl ?_⟩
    · intro e he
      simp only [List.mem_append] at he
      rcases he with he | he
      · exact ⟨(tDelOf_class env out mods e he).1,
          (tDelOf_class env out mods e he).2.1⟩
      · simp at he; subst he; exact ⟨rfl, rfl⟩
    · rw [runCore_noPlugin env a out pkg mods himp]

theorem run_trace_decomp (env : Env) (a : Args) :
    ∃ pre : Trace,
      (∀ e ∈ pre, e.isTraverse = false ∧ e.genPayload = none) ∧
      ((run env a).1 = pre ∨
        ∃ out pkg mods dl, a.modules = some mods ∧
          (run env a).1 = pre ++ (loopOf env a out pkg mods dl).1) := by
  by_cases hc : ((a.xml_file.isNone && a.xml_index_file.isNone) ||
      a.output_file.isNone || a.help) = true
  · have hr : run env a = ([Event.usage], Outcome.fatal) := by
      simp only [run]
      simp [hc]
    exact ⟨[Event.usage], by intro e he; simp at he; subst he; exact ⟨rfl, rfl⟩,
      Or.inl (by rw [hr])⟩
  · rw [Bool.not_eq_true] at hc
    cases hpkg : a.packageName with
    | none =>
      have hr : run env a =
          ([Event.error "Required option --package not specified"],
           Outcome.fatal) := by
        simp only [run]
        simp [hc, hpkg]
      exact ⟨[Event.error "Required option --package not specified"],
        by intro e he; simp at he; subst he; exact ⟨rfl, rfl⟩,
        Or.inl (by rw [hr])⟩
    | some pkg =>
      cases hmods : a.modules with
      | none =>
        have hr : run env a =
            ([Event.error "Required option --module not specified"],
             Outcome.fatal) := by
          simp only [run]
          simp [hc, hpkg, hmods]
        exact ⟨[Event.error "Required option --module not specified"],
          by intro e he; simp at he; subst he; exact ⟨rfl, rfl⟩,
          Or.inl (by rw [hr])⟩
      | some mods =>
        obtain ⟨pre, hpre, hsplit⟩ := runCore_trace_decomp env a
          (a.output_file.getD "") pkg mods
        refine ⟨pre, hpre, ?_⟩
        rcases hsplit with hsplit | ⟨dl, hsplit⟩
        · exact Or.inl (by
            rw [run_eq_core env a pkg mods hc hpkg hmods]; exact hsplit)
        · exact Or.inr ⟨a.output_file.getD "", pkg, mods, dl, rfl, by
            rw [run_eq_core env a pkg mods hc hpkg hmods]; exact hsplit⟩

theorem run_writerFormat (env : Env) (a : Args) :
    ∀ e ∈ (run env a).1, ∀ f, e.writerFormat = some f →
      f = outputFormatOf a := by
  intro e he f hf
  rcases run_mem env a e he with rfl | ⟨msg, rfl⟩ | ⟨p, rfl⟩ | ⟨msg, rfl⟩ |
    ⟨msg, rfl⟩ | hp | hl
  · simp [Event.writerFormat] at hf
  · simp [Event.writerFormat] at hf
  · simp [Event.writerFormat] at hf
  · simp [Event.writerFormat] at hf
  · simp [Event.writerFormat] at hf
  · rcases parsePhase_shape env a e hp with hpe | ⟨msg, rfl⟩
    · cases e <;> simp_all [Event.isParseEvent, Event.writerFormat]
    · simp [Event.writerFormat] at hf
  · exact loopEvent_writerFormat hl hf

theorem run_traverseCount (env : Env) (a : Args) :
    traverseCount (run env a).1 ≤ 1 := by
  obtain ⟨pre, hpre, hsplit⟩ := run_trace_decomp env a
  have hz : traverseCount pre = 0 :=
    traverseCount_eq_zero (fun e he => (hpre e he).1)
  rcases hsplit with hsplit | ⟨out, pkg, mods, dl, _, hsplit⟩
  · rw [hsplit, hz]
    exact Nat.zero_le 1
  · rw [hsplit, traverseCount_append, hz]
    simpa using moduleLoop_traverseCount env.writerLoadOk
      (env.traverseOf (inputPathOf a)) (outputFormatOf a) pkg (picklePathOf a)
      a.use_cached_parsing ((moduleListOf mods).zip (outputFilesOf out mods)) dl

theorem run_payload_unique (env : Env) (a : Args) :
    ∀ p ∈ genPayloads (run env a).1, ∀ q ∈ genPayloads (run env a).1,
      p = q := by
  intro p hp q hq
  obtain ⟨pre, hpre, hsplit⟩ := run_trace_decomp env a
  have hz : genPayloads pre = [] :=
    genPayloads_eq_nil (fun e he => (hpre e he).2)
  rcases hsplit with hsplit | ⟨out, pkg, mods, dl, _, hsplit⟩
  · rw [hsplit, hz] at hp
    simp at hp
  · rw [hsplit, genPayloads_append, hz] at hp hq
    simp only [List.nil_append] at hp hq
    exact moduleLoop_payload_unique env.writerLoadOk
      (env.traverseOf (inputPathOf a)) (outputFormatOf a) pkg (picklePathOf a)
      a.use_cached_parsing ((moduleListOf mods).zip (outputFilesOf out mods)) dl
      p hp q hq

theorem run_traverse_first (env : Env) (a : Args) (mods : String)
    (hmods : a.modules = some mods) :
    ∀ m, Event.traverseCall m ∈ (run env a).1 →
      (moduleListOf mods).head? = some m := by
  intro m hm
  obtain ⟨pre, hpre, hsplit⟩ := run_trace_decomp env a
  rcases hsplit with hsplit | ⟨out, pkg, mods', dl, hmods', hsplit⟩
  · rw [hsplit] at hm
    have := (hpre _ hm).1
    simp [Event.isTraverse] at this
  · have hmm : mods' = mods := by
      rw [hmods] at hmods'
      exact (Option.some.injEq _ _ ▸ hmods').symm ▸ rfl
    subst hmm
    rw [hsplit] at hm
    rw [List.mem_append] at hm
    rcases hm with hm | hm
    · have := (hpre _ hm).1
      simp [Event.isTraverse] at this
    · unfold loopOf at hm
      obtain ⟨-, outF, rest, hpairs⟩ := moduleLoop_traverse_first
        env.writerLoadOk (env.traverseOf (inputPathOf a)) (outputFormatOf a)
        pkg (picklePathOf a) a.use_cached_parsing _ dl m hm
      have := zip_cons_head hpairs
      simpa using this

/-- C1: if the invocation supplies neither an index XML file (`--inputIndex`)
nor a direct XML file (`--input`), or omits the required `--package` or
`--module` arguments, the run terminates fatally, a message (usage text or an
error) is reported to the user, and no parsing, traversal or output
generation is performed. -/
theorem convertDoxygen_missing_input_fatal (env : Env) (a : Args)
    (h : (a.xml_file = none ∧ a.xml_index_file = none) ∨
      a.packageName = none ∨ a.modules = none) :
    (run env a).2 = Outcome.fatal ∧
      (∃ e ∈ (run env a).1, e.isReport = true) ∧
      ∀ e ∈ (run env a).1, e.isWork = false := by
  by_cases hc : ((a.xml_file.isNone && a.xml_index_file.isNone) ||
      a.output_file.isNone || a.help) = true
  · have hr : run env a = ([Event.usage], Outcome.fatal) := by
      simp only [run]
      simp [hc]
    rw [hr]
    exact ⟨rfl, ⟨Event.usage, by simp, rfl⟩,
      by intro e he; simp at he; subst he; rfl⟩
  · rw [Bool.not_eq_true] at hc
    rcases h with ⟨h1, h2⟩ | h | h
    · simp [h1, h2] at hc
    · have hr : run env a =
          ([Event.error "Required option --package not specified"],
           Outcome.fatal) := by
        simp only [run]
        simp [hc, h]
      rw [hr]
      exact ⟨rfl, ⟨Event.error "Required option --package not specified",
        by simp, rfl⟩, by intro e he; simp at he; subst he; rfl⟩
    · cases hpkg : a.packageName with
      | none =>
        have hr : run env a =
            ([Event.error "Required option --package not specified"],
             Outcome.fatal) := by
          simp only [run]
          simp [hc, hpkg]
        rw [hr]
        exact ⟨rfl, ⟨Event.error "Required option --package not specified",
          by simp, rfl⟩, by intro e he; simp at he; subst he; rfl⟩
      | some pkg =>
        have hr : run env a =
            ([Event.error "Required option --module not specified"],
             Outcome.fatal) := by
          simp only [run]
          simp [hc, hpkg, h]
        rw [hr]
        exact ⟨rfl, ⟨Event.error "Required option --module not specified",
          by simp, rfl⟩, by intro e he; simp at he; subst he; rfl⟩

/-- C2: when no writer plugin module `doxygenlib.cdWriter<format>` can be
imported for the requested output format, the run is fatal with an error
message that names the requested format, and no parsing or generation work is
done; when the plugin imports, every writer construction and every `generate`
call in the run goes through that format's `Writer` class. -/
theorem convertDoxygen_plugin_discovery (env : Env) (a : Args)
    (out pkg mods : String)
    (hin : (a.xml_file.isNone && a.xml_index_file.isNone) = false)
    (hout : a.output_file = some out) (hhelp : a.help = false)
    (hpkg : a.packageName = some pkg) (hmods : a.modules = some mods) :
    (env.importable (writerModuleNameOf (outputFormatOf a)) = false →
      (run env a).2 = Outcome.fatal ∧
        Event.error ("No writer plugin exists for format '" ++
          outputFormatOf a ++ "'") ∈ (run env a).1 ∧
        ∀ e ∈ (run env a).1, e.isWork = false) ∧
    (env.importable (writerModuleNameOf (outputFormatOf a)) = true →
      ∀ e ∈ (run env a).1, ∀ f, e.writerFormat = some f →
        f = outputFormatOf a) := by
  constructor
  · intro himp
    rw [run_ready env a out pkg mods hin hout hhelp hpkg hmods,
      runCore_noPlugin env a out pkg mods himp]
    refine ⟨rfl, by simp, ?_⟩
    intro e he
    simp only [List.mem_append] at he
    rcases he with he | he
    · exact (tDelOf_class env out mods e he).2.2.2.2
    · simp at he; subst he; rfl
  · intro _ e he f hf
    exact run_writerFormat env a e he f hf

/-- C3: when the cache supplies nothing and the parser entry point
(`parseDoxygenIndexFile` or `parse`) returns false, the parse call itself does
not raise (it is modelled as a total boolean-returning function); the script
checks the boolean and aborts the whole run fatally with an error, and no
traversal or `generate` call ever receives a tree. -/
theorem convertDoxygen_parse_failure_aborts (env : Env) (a : Args)
    (out pkg mods : String)
    (hin : (a.xml_file.isNone && a.xml_index_file.isNone) = false)
    (hout : a.output_file = some out) (hhelp : a.help = false)
    (hpkg : a.packageName = some pkg) (hmods : a.modules = some mods)
    (himp : env.importable (writerModuleNameOf (outputFormatOf a)) = true)
    (hcr : (cachePhase env a.use_cached_parsing (picklePathOf a)).2 = none)
    (hfail : parseOk env a = false) :
    (run env a).2 = Outcome.fatal ∧
      (∃ msg, Event.error msg ∈ (run env a).1) ∧
      ∀ e ∈ (run env a).1, e.isTraverse = false ∧ e.isGenerate = false := by
  have hok : (parsePhase env a).2 = false := by
    rw [parsePhase_ok]
    exact hfail
  rw [run_ready env a out pkg mods hin hout hhelp hpkg hmods,
    runCore_parseFail env a out pkg mods himp hcr hok]
  refine ⟨rfl, ?_, ?_⟩
  · obtain ⟨msg, hm⟩ := parsePhase_fail_error env a hok
    exact ⟨msg, by simp [hm]⟩
  · intro e he
    simp only [List.mem_append] at he
    rcases he with ((he | he) | he) | he
    · exact ⟨(tDelOf_class env out mods e he).1,
        (tDelOf_class env out mods e he).2.2.2.1⟩
    · simp at he; subst he; exact ⟨rfl, rfl⟩
    · exact ⟨(cachePhase_class env _ _ e he).1,
        (cachePhase_class env _ _ e he).2.2.2.1⟩
    · exact ⟨(parsePhase_class env a e he).1,
        (parsePhase_class env a e he).2.2⟩

/-- C5: when caching is enabled, the cache file exists and loads successfully
(a valid cache hit yielding `docs`), no parser entry point and no traversal
is ever invoked, and the cached `DocElement` sequence `docs` is the payload
of every `writer.generate` call of the run. -/
theorem convertDoxygen_cache_hit_skips_parse (env : Env) (a : Args)
    (out pkg mods : String) (docs : List DocElement)
    (hin : (a.xml_file.isNone && a.xml_index_file.isNone) = false)
    (hout : a.output_file = some out) (hhelp : a.help = false)
    (hpkg : a.packageName = some pkg) (hmods : a.modules = some mods)
    (himp : env.importable (writerModuleNameOf (outputFormatOf a)) = true)
    (hcr : (cachePhase env a.use_cached_parsing (picklePathOf a)).2
      = some docs) :
    (∀ e ∈ (run env a).1, e.isParseEvent = false ∧ e.isTraverse = false) ∧
      ∀ p ∈ genPayloads (run env a).1, p = docs := by
  rw [run_ready env a out pkg mods hin hout hhelp hpkg hmods,
    runCore_cacheHit env a out pkg mods docs himp hcr]
  constructor
  · intro e he
    simp only [List.mem_append] at he
    rcases he with ((he | he) | he) | he
    · exact ⟨(tDelOf_class env out mods e he).2.2.1,
        (tDelOf_class env out mods e he).1⟩
    · simp at he; subst he; exact ⟨rfl, rfl⟩
    · exact ⟨(cachePhase_class env _ _ e he).2.2.1,
        (cachePhase_class env _ _ e he).1⟩
    · unfold loopOf at he
      exact ⟨loopEvent_not_parse (moduleLoop_shape _ _ _ _ _ _ _ _ e he),
        (moduleLoop_some _ _ _ _ _ _ _ _ e he).1⟩
  · intro p hp
    rw [genPayloads_append, genPayloads_append, genPayloads_append] at hp
    have h1 : genPayloads (tDelOf env out mods) = [] :=
      genPayloads_eq_nil (fun e he => (tDelOf_class env out mods e he).2.1)
    have h3 : genPayloads
        (cachePhase env a.use_cached_parsing (picklePathOf a)).1 = [] :=
      genPayloads_eq_nil (fun e he => (cachePhase_class env _ _ e he).2.1)
    rw [h1, h3] at hp
    simp only [List.nil_append, List.append_nil] at hp
    rw [List.mem_append] at hp
    rcases hp with hp | hp
    · simp [genPayloads, Event.genPayload, List.filterMap] at hp
    · unfold loopOf at hp
      exact moduleLoop_genPayloads_some _ _ _ _ _ _ _ _ p hp

/-- C8 (implicit): when no `--format`/`-f` argument is supplied the output
format defaults to "Docstring", the plugin module looked up is
`doxygenlib.cdWriterDocstring`, and every writer event of the run is tagged
with the "Docstring" format. -/
theorem convertDoxygen_default_format_docstring (env : Env) (a : Args)
    (h : a.format_arg = none) :
    outputFormatOf a = "Docstring" ∧
    writerModuleNameOf (outputFormatOf a) = "doxygenlib.cdWriterDocstring" ∧
    ∀ e ∈ (run env a).1, ∀ f, e.writerFormat = some f → f = "Docstring" := by
  have h1 : outputFormatOf a = "Docstring" := by
    simp [outputFormatOf, h]
  refine ⟨h1, by rw [h1]; rfl, ?_⟩
  intro e he f hf
  rw [← h1]
  exact run_writerFormat env a e he f hf

/-- C9 (implicit): when both `--inputIndex` and `--input` are supplied, the
index file wins: the cache path is the index path plus ".pickle", the direct
XML file is never parsed on its own (`parser.parse` is never invoked), and
when the run reaches an actual parse (no cache hit, guards passed), it is
`parseDoxygenIndexFile` on the index file. -/
theorem convertDoxygen_index_precedence (env : Env) (a : Args)
    (idx xf : String)
    (hidx : a.xml_index_file = some idx) (hxml : a.xml_file = some xf) :
    picklePathOf a = idx ++ ".pickle" ∧
    (∀ x, Event.parseCall x ∉ (run env a).1) ∧
    ((cachePhase env a.use_cached_parsing (picklePathOf a)).2 = none →
      ∀ out pkg mods, a.output_file = some out → a.help = false →
        a.packageName = some pkg → a.modules = some mods →
        env.importable (writerModuleNameOf (outputFormatOf a)) = true →
        Event.parseIndexCall idx ∈ (run env a).1) := by
  refine ⟨by simp [picklePathOf, hidx], ?_, ?_⟩
  · intro x hx
    rcases run_mem env a _ hx with h | ⟨msg, h⟩ | ⟨p, h⟩ | ⟨msg, h⟩ |
      ⟨msg, h⟩ | hp | hl
    · simp at h
    · simp at h
    · simp at h
    · simp at h
    · simp at h
    · exact (parsePhase_index env a idx hidx).2 x hp
    · simp [loopEvent] at hl
  · intro hcr out pkg mods hout hhelp hpkg hmods himp
    have hin : (a.xml_file.isNone && a.xml_index_file.isNone) = false := by
      simp [hidx]
    rw [run_ready env a out pkg mods hin hout hhelp hpkg hmods]
    have hpm := (parsePhase_index env a idx hidx).1
    by_cases hok : (parsePhase env a).2 = true
    · rw [runCore_parseGo env a out pkg mods himp hcr hok]
      simp [hpm]
    · rw [Bool.not_eq_true] at hok
      rw [runCore_parseFail env a out pkg mods himp hcr hok]
      simp [hpm]

/-- C10 (implicit): in a run over multiple `--module` entries,
`parser.traverse` is invoked at most once, only for the first module of the
list, and every `writer.generate` call of the run receives the identical
ordered `DocElement` sequence. -/
theorem convertDoxygen_traverse_once (env : Env) (a : Args) (mods : String)
    (hmods : a.modules = some mods)
    (hmulti : 2 ≤ (moduleListOf mods).length) :
    traverseCount (run env a).1 ≤ 1 ∧
    (∀ p ∈ genPayloads (run env a).1, ∀ q ∈ genPayloads (run env a).1,
      p = q) ∧
    ∀ m, Event.traverseCall m ∈ (run env a).1 →
      (moduleListOf mods).head? = some m :=
  ⟨run_traverseCount env a, run_payload_unique env a,
    run_traverse_first env a mods hmods⟩

/-- The same environment with the file at `pp` made nonexistent: the world of
"the cache file does not exist", all else unchanged. -/
def maskPickle (env : Env) (pp : String) : Env :=
  {env with fileExists := fun p => if p = pp then false else env.fileExists p}

/-- C4: with caching enabled, when the cache file exists but loading it
raises, the failure is recovered locally: the run's trace is that of a run in
which the cache file does not exist at all, except for two extra debug-level
log events; the run does not terminate because of the failure, and a full
parse of the XML input is performed. -/
theorem convertDoxygen_cache_corrupt_recovers (env : Env) (a : Args)
    (out pkg mods : String)
    (hin : (a.xml_file.isNone && a.xml_index_file.isNone) = false)
    (hout : a.output_file = some out) (hhelp : a.help = false)
    (hpkg : a.packageName = some pkg) (hmods : a.modules = some mods)
    (himp : env.importable (writerModuleNameOf (outputFormatOf a)) = true)
    (huc : a.use_cached_parsing = true)
    (hfe : env.fileExists (picklePathOf a) = true)
    (hexn : env.cacheLoad (picklePathOf a) = CacheResult.exn)
    (hsep : picklePathOf a ∉ outputFilesOf out mods) :
    ∃ t1 t2 o,
      run env a = (t1 ++ [Event.debug ("Error reading pre-parsed file: '" ++
          picklePathOf a ++ "'"), Event.debug "traceback.format_exc()"] ++ t2,
        o) ∧
      run (maskPickle env (picklePathOf a)) a = (t1 ++ t2, o) ∧
      ∃ e ∈ t2, e.isParseEvent = true := by
  have hce : cachePhase env a.use_cached_parsing (picklePathOf a) =
      ([Event.debug ("Error reading pre-parsed file: '" ++ picklePathOf a ++
         "'"), Event.debug "traceback.format_exc()"], none) :=
    cachePhase_exn env _ _ huc hfe hexn
  have hcr : (cachePhase env a.use_cached_parsing (picklePathOf a)).2
      = none := by rw [hce]
  have hfe' : (maskPickle env (picklePathOf a)).fileExists (picklePathOf a)
      = false := by simp [maskPickle]
  have hce' : cachePhase (maskPickle env (picklePathOf a))
      a.use_cached_parsing (picklePathOf a) = ([], none) :=
    cachePhase_nofile _ _ _ hfe'
  have hcr' : (cachePhase (maskPickle env (picklePathOf a))
      a.use_cached_parsing (picklePathOf a)).2 = none := by rw [hce']
  have htd : tDelOf (maskPickle env (picklePathOf a)) out mods
      = tDelOf env out mods := by
    refine tDelOf_congr env _ out mods (fun f hf => ?_)
    have hne : f ≠ picklePathOf a := fun hq => hsep (hq ▸ hf)
    simp [maskPickle, hne]
  have himp' : (maskPickle env (picklePathOf a)).importable
      (writerModuleNameOf (outputFormatOf a)) = true := himp
  have hpp : parsePhase (maskPickle env (picklePathOf a)) a
      = parsePhase env a := rfl
  have hlo : ∀ dl, loopOf (maskPickle env (picklePathOf a)) a out pkg mods dl
      = loopOf env a out pkg mods dl := fun _ => rfl
  by_cases hok : (parsePhase env a).2 = true
  · refine ⟨tDelOf env out mods ++
      [Event.print ("Converting Doxygen comments to " ++ outputFormatOf a ++
        " format...")],
      (parsePhase env a).1 ++ (loopOf env a out pkg mods none).1,
      (loopOf env a out pkg mods none).2, ?_, ?_, ?_⟩
    · rw [run_ready env a out pkg mods hin hout hhelp hpkg hmods,
        runCore_parseGo env a out pkg mods himp hcr hok, hce]
      simp [List.append_assoc]
    · have hok' : (parsePhase (maskPickle env (picklePathOf a)) a).2
          = true := by rw [hpp]; exact hok
      rw [run_ready _ a out pkg mods hin hout hhelp hpkg hmods,
        runCore_parseGo _ a out pkg mods himp' hcr' hok', hce', htd, hpp,
        hlo none]
      simp [List.append_assoc]
    · obtain ⟨e, he, hpe⟩ := parsePhase_has_parse env a
      exact ⟨e, List.mem_append_left _ he, hpe⟩
  · rw [Bool.not_eq_true] at hok
    refine ⟨tDelOf env out mods ++
      [Event.print ("Converting Doxygen comments to " ++ outputFormatOf a ++
        " format...")],
      (parsePhase env a).1, Outcome.fatal, ?_, ?_, ?_⟩
    · rw [run_ready env a out pkg mods hin hout hhelp hpkg hmods,
        runCore_parseFail env a out pkg mods himp hcr hok, hce]
    · have hok' : (parsePhase (maskPickle env (picklePathOf a)) a).2
          = false := by rw [hpp]; exact hok
      rw [run_ready _ a out pkg mods hin hout hhelp hpkg hmods,
        runCore_parseFail _ a out pkg mods himp' hcr' hok', hce', htd, hpp]
      simp [List.append_assoc]
    · exact parsePhase_has_parse env a

theorem genPayloads_print (msg : String) :
    genPayloads [Event.print msg] = [] := rfl

theorem genPayloads_debug (msg : String) :
    genPayloads [Event.debug msg] = [] := rfl

/-- A concrete documentation element list for concrete test worlds. -/
def exDocs : List DocElement :=
  [{ kind := "class", name := "Foo", refid := "classFoo",
     brief := "A foo.", detailed := "Details." }]

/-- A concrete environment: every file exists, every module imports, the
cache deserializes to `exDocs`, parsing succeeds, traversal yields `exDocs`,
writers load. -/
def exEnv : Env :=
  { fileExists := fun _ => true
    importable := fun _ => true
    cacheLoad := fun _ => CacheResult.ok exDocs
    parseIndexResult := fun _ => true
    parseResult := fun _ => true
    traverseOf := fun _ _ => exDocs
    writerLoadOk := fun _ _ => true
    sourceSig := fun _ => 0 }

/-- A concrete argument vector: index-file input, two modules, caching on,
default format. -/
def exArgs : Args :=
  { xml_file := none
    xml_file_dir := none
    xml_index_file := some "index.xml"
    output_file := some "outdir"
    format_arg := none
    python_path := none
    dll_path := none
    use_cached_parsing := true
    debug_mode := false
    help := false
    packageName := some "pxr"
    modules := some "Usd,Sdf" }

/-- C6 counterexample: two worlds that differ only in the source's
content/modification signature (1 versus 2, while the cache file is
unchanged) both yield a valid cache hit, and the runs are identical — the
cache-validity check consults the pickle path derived from the source path
only, never any content/modification signature, so a hit cannot require the
signatures to match. -/
theorem convertDoxygen_cache_hit_ignores_signature :
    ({exEnv with sourceSig := fun _ => 1} : Env).sourceSig
        (inputPathOf exArgs) ≠
      ({exEnv with sourceSig := fun _ => 2} : Env).sourceSig
        (inputPathOf exArgs) ∧
    validCacheHit {exEnv with sourceSig := fun _ => 1} exArgs = true ∧
    validCacheHit {exEnv with sourceSig := fun _ => 2} exArgs = true ∧
    run {exEnv with sourceSig := fun _ => 1} exArgs =
      run {exEnv with sourceSig := fun _ => 2} exArgs :=
  ⟨by decide, rfl, rfl, rfl⟩

/-- C6 (amended): the serialized parse cache is keyed by the source path's
identity alone — the cache file is the source path plus ".pickle" — and a
cache entry is treated as a valid hit exactly when caching is enabled, the
cache file exists and it deserializes successfully; no content/modification
signature of the source takes part in the decision (replacing the signature
function changes nothing). -/
theorem convertDoxygen_cache_keyed_by_path_only (env : Env) (a : Args)
    (sig : String → Nat) :
    picklePathOf a = inputPathOf a ++ ".pickle" ∧
    validCacheHit {env with sourceSig := sig} a = validCacheHit env a ∧
    validCacheHit env a = (a.use_cached_parsing &&
      env.fileExists (picklePathOf a) &&
      (env.cacheLoad (picklePathOf a)).isOk) := by
  refine ⟨?_, rfl, ?_⟩
  · unfold picklePathOf inputPathOf
    cases a.xml_index_file <;> rfl
  · unfold validCacheHit cachePhase
    by_cases h1 : (a.use_cached_parsing &&
        env.fileExists (picklePathOf a)) = true
    · rw [if_pos h1]
      cases hl : env.cacheLoad (picklePathOf a) <;>
        simp [hl, CacheResult.isOk, h1]
    · rw [if_neg h1]
      rw [Bool.not_eq_true] at h1
      simp [h1]

/-- C7: round-trip through the cache.  When the cache file deserializes to
exactly the `DocElement` sequence a traversal of this input with the first
module's writer produces (which is what a caching run dumps), the cached run
passes to its `generate` calls exactly the same payloads a fresh run without
the cache file would, and every payload equals that fresh parse-and-traverse
result. -/
theorem convertDoxygen_cache_roundtrip (env : Env) (a : Args)
    (out pkg mods : String)
    (hin : (a.xml_file.isNone && a.xml_index_file.isNone) = false)
    (hout : a.output_file = some out) (hhelp : a.help = false)
    (hpkg : a.packageName = some pkg) (hmods : a.modules = some mods)
    (himp : env.importable (writerModuleNameOf (outputFormatOf a)) = true)
    (huc : a.use_cached_parsing = true)
    (hfe : env.fileExists (picklePathOf a) = true)
    (hload : env.cacheLoad (picklePathOf a) = CacheResult.ok
      (env.traverseOf (inputPathOf a) ((moduleListOf mods).headD "")))
    (hparse : parseOk env a = true) :
    genPayloads (run env a).1 =
      genPayloads (run (maskPickle env (picklePathOf a)) a).1 ∧
    ∀ p ∈ genPayloads (run env a).1,
      p = env.traverseOf (inputPathOf a) ((moduleListOf mods).headD "") := by
  have hce : cachePhase env a.use_cached_parsing (picklePathOf a) =
      ([Event.debug ("Read pre-parsed file: '" ++ picklePathOf a ++ "'")],
       some (env.traverseOf (inputPathOf a) ((moduleListOf mods).headD ""))) :=
    cachePhase_hit env _ _ _ huc hfe hload
  have hcr : (cachePhase env a.use_cached_parsing (picklePathOf a)).2
      = some (env.traverseOf (inputPathOf a)
          ((moduleListOf mods).headD "")) := by rw [hce]
  have hfe' : (maskPickle env (picklePathOf a)).fileExists (picklePathOf a)
      = false := by simp [maskPickle]
  have hce' : cachePhase (maskPickle env (picklePathOf a))
      a.use_cached_parsing (picklePathOf a) = ([], none) :=
    cachePhase_nofile _ _ _ hfe'
  have hcr' : (cachePhase (maskPickle env (picklePathOf a))
      a.use_cached_parsing (picklePathOf a)).2 = none := by rw [hce']
  have hok : (parsePhase env a).2 = true := by
    rw [parsePhase_ok]
    exact hparse
  have hok' : (parsePhase (maskPickle env (picklePathOf a)) a).2
      = true := hok
  have himp' : (maskPickle env (picklePathOf a)).importable
      (writerModuleNameOf (outputFormatOf a)) = true := himp
  have hpp : parsePhase (maskPickle env (picklePathOf a)) a
      = parsePhase env a := rfl
  have hlo : ∀ dl, loopOf (maskPickle env (picklePathOf a)) a out pkg mods dl
      = loopOf env a out pkg mods dl := fun _ => rfl
  have g1 : genPayloads (tDelOf env out mods) = [] :=
    genPayloads_eq_nil (fun e he => (tDelOf_class env out mods e he).2.1)
  have g1m : genPayloads
      (tDelOf (maskPickle env (picklePathOf a)) out mods) = [] :=
    genPayloads_eq_nil (fun e he => (tDelOf_class _ out mods e he).2.1)
  have g4 : genPayloads (parsePhase env a).1 = [] :=
    genPayloads_eq_nil (fun e he => (parsePhase_class env a e he).2.1)
  have hkey : genPayloads (loopOf env a out pkg mods
      (some (env.traverseOf (inputPathOf a)
        ((moduleListOf mods).headD "")))).1 =
      genPayloads (loopOf env a out pkg mods none).1 := by
    unfold loopOf outputFilesOf
    cases hml : moduleListOf mods with
    | nil => rfl
    | cons m1 mr =>
      simp only [List.map_cons, List.zip_cons_cons, List.headD_cons]
      exact (moduleLoop_genPayloads_none_cons env.writerLoadOk
        (env.traverseOf (inputPathOf a)) (outputFormatOf a) pkg
        (picklePathOf a) a.use_cached_parsing m1 _ _).symm
  have hLHS : genPayloads (run env a).1 =
      genPayloads (loopOf env a out pkg mods
        (some (env.traverseOf (inputPathOf a)
          ((moduleListOf mods).headD "")))).1 := by
    rw [run_ready env a out pkg mods hin hout hhelp hpkg hmods,
      runCore_cacheHit env a out pkg mods _ himp hcr, hce]
    simp only [genPayloads_append, g1, genPayloads_print, genPayloads_debug,
      List.nil_append]
  constructor
  · rw [hLHS, run_ready (maskPickle env (picklePathOf a)) a out pkg mods hin
      hout hhelp hpkg hmods,
      runCore_parseGo (maskPickle env (picklePathOf a)) a out pkg mods himp'
        hcr' hok', hce', hpp, hlo none]
    simp only [genPayloads_append, g1m, g4, genPayloads_print,
      List.nil_append, List.append_nil]
    exact hkey
  · intro p hp
    rw [hLHS] at hp
    unfold loopOf at hp
    exact moduleLoop_genPayloads_some _ _ _ _ _ _ _ _ p hp

/-- A concrete argument vector with no XML input at all. -/
def exArgsNoInput : Args := { exArgs with xml_index_file := none }

/-- A concrete world with no writer plugin importable. -/
def exEnvNoPlugin : Env := { exEnv with importable := fun _ => false }

/-- A concrete world where parsing fails and no cache file exists. -/
def exEnvParseFail : Env :=
  { exEnv with parseIndexResult := fun _ => false,
               fileExists := fun _ => false }

/-- A concrete world with a corrupt cache file. -/
def exEnvCorrupt : Env := { exEnv with cacheLoad := fun _ => CacheResult.exn }

/-- A concrete argument vector supplying both `--inputIndex` and `--input`. -/
def exArgsBoth : Args := { exArgs with xml_file := some "direct.xml" }

theorem convertDoxygen_missing_input_fatal_witness :
    (exArgsNoInput.xml_file = none ∧ exArgsNoInput.xml_index_file = none) ∧
    (run exEnv exArgsNoInput).2 = Outcome.fatal :=
  ⟨⟨rfl, rfl⟩, (convertDoxygen_missing_input_fatal exEnv exArgsNoInput
    (Or.inl ⟨rfl, rfl⟩)).1⟩

theorem convertDoxygen_plugin_discovery_witness :
    exEnvNoPlugin.importable (writerModuleNameOf (outputFormatOf exArgs))
      = false ∧
    (run exEnvNoPlugin exArgs).2 = Outcome.fatal ∧
    Event.error ("No writer plugin exists for format '" ++
      outputFormatOf exArgs ++ "'") ∈ (run exEnvNoPlugin exArgs).1 := by
  have h := (convertDoxygen_plugin_discovery exEnvNoPlugin exArgs "outdir"
    "pxr" "Usd,Sdf" rfl rfl rfl rfl rfl).1 rfl
  exact ⟨rfl, h.1, h.2.1⟩

theorem convertDoxygen_parse_failure_aborts_witness :
    parseOk exEnvParseFail exArgs = false ∧
    (run exEnvParseFail exArgs).2 = Outcome.fatal :=
  ⟨rfl, (convertDoxygen_parse_failure_aborts exEnvParseFail exArgs "outdir"
    "pxr" "Usd,Sdf" rfl rfl rfl rfl rfl rfl rfl rfl).1⟩

theorem convertDoxygen_cache_corrupt_recovers_witness :
    exEnvCorrupt.cacheLoad (picklePathOf exArgs) = CacheResult.exn ∧
    ∃ t1 t2 o,
      run exEnvCorrupt exArgs =
        (t1 ++ [Event.debug ("Error reading pre-parsed file: '" ++
          picklePathOf exArgs ++ "'"),
          Event.debug "traceback.format_exc()"] ++ t2, o) ∧
      run (maskPickle exEnvCorrupt (picklePathOf exArgs)) exArgs
        = (t1 ++ t2, o) ∧
      ∃ e ∈ t2, e.isParseEvent = true :=
  ⟨rfl, convertDoxygen_cache_corrupt_recovers exEnvCorrupt exArgs "outdir"
    "pxr" "Usd,Sdf" rfl rfl rfl rfl rfl rfl rfl rfl rfl (by decide)⟩

theorem convertDoxygen_cache_hit_skips_parse_witness :
    (cachePhase exEnv exArgs.use_cached_parsing (picklePathOf exArgs)).2
      = some exDocs ∧
    ∀ p ∈ genPayloads (run exEnv exArgs).1, p = exDocs :=
  ⟨rfl, (convertDoxygen_cache_hit_skips_parse exEnv exArgs "outdir" "pxr"
    "Usd,Sdf" exDocs rfl rfl rfl rfl rfl rfl rfl).2⟩

theorem convertDoxygen_cache_roundtrip_witness :
    parseOk exEnv exArgs = true ∧
    genPayloads (run exEnv exArgs).1 =
      genPayloads (run (maskPickle exEnv (picklePathOf exArgs)) exArgs).1 :=
  ⟨rfl, (convertDoxygen_cache_roundtrip exEnv exArgs "outdir" "pxr" "Usd,Sdf"
    rfl rfl rfl rfl rfl rfl rfl rfl rfl rfl).1⟩

theorem convertDoxygen_default_format_docstring_witness :
    exArgs.format_arg = none ∧ outputFormatOf exArgs = "Docstring" :=
  ⟨rfl, (convertDoxygen_default_format_docstring exEnv exArgs rfl).1⟩

theorem convertDoxygen_index_precedence_witness :
    (exArgsBoth.xml_index_file = some "index.xml" ∧
     exArgsBoth.xml_file = some "direct.xml") ∧
    picklePathOf exArgsBoth = "index.xml" ++ ".pickle" :=
  ⟨⟨rfl, rfl⟩, (convertDoxygen_index_precedence exEnv exArgsBoth "index.xml"
    "direct.xml" rfl rfl).1⟩

theorem convertDoxygen_traverse_once_witness :
    2 ≤ (moduleListOf "Usd,Sdf").length ∧
    traverseCount (run exEnv exArgs).1 ≤ 1 :=
  ⟨by decide, (convertDoxygen_traverse_once exEnv exArgs "Usd,Sdf" rfl
    (by decide)).1⟩
